import Mathlib

/-! Overview.
Verification of the SecureNN protocol layer
(`tensorflow_encrypted/protocol/securenn.py`).

The development embeds the protocol at two granularities, matching how the
claims use it:

* a value-level model (`PondValue`): a secret-shared tensor element is
  represented by the plaintext it reconstructs to (an element of `ZMod M`,
  `M` the active ring cardinality) together with its `is_scaled` flag.  The
  base Pond linear-sharing operations (`add`, `sub`, `mul`) are external to
  the file under verification and are modelled from the spec as the
  corresponding ring operations on plaintexts, which is exactly the
  reconstruction invariant the spec states for them.  Python exceptions are
  modelled with `Except PyError`.

* a share-level model for `share_convert`, `share_with_wrap` and the wrap
  helpers, where a private value is an explicit pair of natural-number
  shares and every ring reduction is an explicit `% M`, so that wrap counts
  are observable.

The `@memoize` decorator only caches pure computations and is dropped; the
`tf.device` placement annotations only choose which party executes a step
and are dropped as well.
-/

/-- Python exception classes raised by the SecureNN layer: the
unimplemented-operation signal (`NotImplementedError`), the configuration
error (`Exception` with a configuration message), and the precondition
violation (`AssertionError` from `assert not x.is_scaled`). -/
inductive PyError where
  | notImplemented
  | configError
  | assertionError
deriving DecidableEq

/-- Value-level model of a Pond tensor element: the plaintext it
reconstructs to under the active ring of cardinality `M`, plus the
fixed-point scaling flag.  Public and private values reconstruct to the
same plaintext, so both are represented this way. -/
structure PondValue (M : Nat) where
  value : ZMod M
  is_scaled : Bool

/-- Value of a single random bit (from `_generate_random_bits`, backed by
the prime-2 ring) as an element of the ring of cardinality `M`. -/
def bitVal (M : Nat) : Bool → ZMod M
  | true => 1
  | false => 0

/-- Modelled from the spec: Pond `add` of shared values (pond.py is outside
the verified file); shares add pointwise, so the reconstructed plaintext is
the ring sum. -/
def pondAdd {M : Nat} (x y : PondValue M) : PondValue M :=
  ⟨x.value + y.value, x.is_scaled⟩

/-- Modelled from the spec: Pond `sub` of shared values; reconstruction is
the ring difference. -/
def pondSub {M : Nat} (x y : PondValue M) : PondValue M :=
  ⟨x.value - y.value, x.is_scaled⟩

/-- Modelled from the spec: Pond share multiplication; reconstruction is
the ring product, and the product of scaled values stays scaled. -/
def pondMul {M : Nat} (x y : PondValue M) : PondValue M :=
  ⟨x.value * y.value, x.is_scaled || y.is_scaled⟩

/-- Modelled from the spec: Pond multiplication by a public integer
constant (`x * 2` in the source). -/
def pondMulPubNat {M : Nat} (x : PondValue M) (k : Nat) : PondValue M :=
  ⟨x.value * (k : ZMod M), x.is_scaled⟩

/-- Source `SecureNN.bitwise_not`: assert the input unscaled, then `sub(1, x)`. -/
def bitwise_not (M : Nat) (x : PondValue M) : Except PyError (PondValue M) :=
  if x.is_scaled then .error .assertionError else
  .ok (pondSub ⟨1, false⟩ x)

/-- Source `SecureNN.bitwise_and`: assert both inputs unscaled, then `x * y`. -/
def bitwise_and (M : Nat) (x y : PondValue M) : Except PyError (PondValue M) :=
  if x.is_scaled then .error .assertionError else
  if y.is_scaled then .error .assertionError else
  .ok (pondMul x y)

/-- Source `SecureNN.bitwise_or`: assert both inputs unscaled, then
`x + y - bitwise_and(x, y)`. -/
def bitwise_or (M : Nat) (x y : PondValue M) : Except PyError (PondValue M) :=
  if x.is_scaled then .error .assertionError else
  if y.is_scaled then .error .assertionError else
  do
    let a ← bitwise_and M x y
    .ok (pondSub (pondAdd x y) a)

/-- Source `SecureNN.bitwise_xor`: assert both inputs unscaled, then
`x + y - bitwise_and(x, y) * 2`. -/
def bitwise_xor (M : Nat) (x y : PondValue M) : Except PyError (PondValue M) :=
  if x.is_scaled then .error .assertionError else
  if y.is_scaled then .error .assertionError else
  do
    let a ← bitwise_and M x y
    .ok (pondSub (pondAdd x y) (pondMulPubNat a 2))

/-- Source `SecureNN.private_compare`: `raise NotImplementedError()`.  The
argument and result types are irrelevant to the body, so they are kept
polymorphic. -/
def private_compare {α β γ δ : Type} (x : α) (r : β) (beta : γ) :
    Except PyError δ :=
  .error .notImplemented

/-- Source `SecureNN.divide`: `raise NotImplementedError`. -/
def divide {α β γ : Type} (x : α) (y : β) : Except PyError γ :=
  .error .notImplemented

/-- Source `SecureNN.max_pool`: `raise NotImplementedError`. -/
def max_pool {α β : Type} (x : α) : Except PyError β :=
  .error .notImplemented

/-- Source `SecureNN.dmax_pool_efficient`: `raise NotImplementedError`. -/
def dmax_pool_efficient {α β : Type} (x : α) : Except PyError β :=
  .error .notImplemented

/-- Modelled from the spec: the ring backend's `to_bits` bit decomposition
(tensor backend is outside the verified file). -/
def natBits (k n : Nat) : List Bool := (List.range k).map n.testBit

/-- Source `_lsb_private`: the private-value implementation of `lsb` dispatched to
by `SecureNN.lsb`.  The crypto producer samples `x` (`xsamp`), decomposes
it to bits and extracts its LSB; a random blinding bit `bbit` is drawn; the
two primary parties reveal `r = y + x`; then `private_compare` is invoked
(which raises), and the XOR recombination below it is never reached. -/
def _lsb_private (M : Nat) (xsamp : ZMod M) (bbit : Bool) (y : PondValue M) :
    Except PyError (PondValue M) := do
  let x : ZMod M := xsamp
  let xbits : List Bool := natBits 64 (ZMod.val x)
  let xlsb : PondValue M := ⟨((ZMod.val x % 2 : Nat) : ZMod M), false⟩
  let b : PondValue M := ⟨bitVal M bbit, false⟩
  let r : ZMod M := y.value + x
  let rlsb : PondValue M := ⟨((ZMod.val r % 2 : Nat) : ZMod M), false⟩
  let bp ← private_compare xbits r bbit
  let gamma ← bitwise_xor M bp b
  let delta ← bitwise_xor M xlsb rlsb
  let alpha ← bitwise_xor M gamma delta
  return alpha

/-- Source `SecureNN.lsb`: dispatches by representation; for a private value the
ring-specific implementation is `_lsb_private` (a masked value delegates to
the same function on its interior value). -/
def lsb (M : Nat) (xsamp : ZMod M) (bbit : Bool) (x : PondValue M) :
    Except PyError (PondValue M) :=
  _lsb_private M xsamp bbit x

/-- Source `SecureNN.msb`: raises the configuration error unless the active
modulus is odd (`if self.M % 2 != 1`), otherwise returns `lsb(x * 2)`. -/
def msb (M : Nat) (xsamp : ZMod M) (bbit : Bool) (x : PondValue M) :
    Except PyError (PondValue M) :=
  if M % 2 ≠ 1 then .error .configError else
  lsb M xsamp bbit (pondMulPubNat x 2)

/-- Source `SecureNN.negative`: `msb(x)`. -/
def negative (M : Nat) (xsamp : ZMod M) (bbit : Bool) (x : PondValue M) :
    Except PyError (PondValue M) :=
  msb M xsamp bbit x

/-- Source `SecureNN.non_negative`: `bitwise_not(msb(x))`. -/
def non_negative (M : Nat) (xsamp : ZMod M) (bbit : Bool) (x : PondValue M) :
    Except PyError (PondValue M) := do
  let m ← msb M xsamp bbit x
  bitwise_not M m

/-- Source `SecureNN.less`: `negative(x - y)`. -/
def less (M : Nat) (xsamp : ZMod M) (bbit : Bool) (x y : PondValue M) :
    Except PyError (PondValue M) :=
  negative M xsamp bbit (pondSub x y)

/-- Source `SecureNN.greater`: `negative(y - x)`. -/
def greater (M : Nat) (xsamp : ZMod M) (bbit : Bool) (x y : PondValue M) :
    Except PyError (PondValue M) :=
  negative M xsamp bbit (pondSub y x)

/-- Source `SecureNN.less_equal`: `bitwise_not(greater(x, y))`. -/
def less_equal (M : Nat) (xsamp : ZMod M) (bbit : Bool) (x y : PondValue M) :
    Except PyError (PondValue M) := do
  let g ← greater M xsamp bbit x y
  bitwise_not M g

/-- Source `SecureNN.greater_equal`: `bitwise_not(less(x, y))`. -/
def greater_equal (M : Nat) (xsamp : ZMod M) (bbit : Bool) (x y : PondValue M) :
    Except PyError (PondValue M) := do
  let l ← less M xsamp bbit x y
  bitwise_not M l

/-- Source `SecureNN.relu`: `non_negative(x) * x`. -/
def relu (M : Nat) (xsamp : ZMod M) (bbit : Bool) (x : PondValue M) :
    Except PyError (PondValue M) := do
  let d ← non_negative M xsamp bbit x
  .ok (pondMul d x)

/-- The auxiliary small-prime modulus from the source: `p = 67`. -/
def p : Nat := 67

/-- Modelled from the spec: the ring backend's `compute_wrap` on two ring
elements, the single-bit wrap indicator recording whether their integer sum
overflows the modulus. -/
def compute_wrap (a b M : Nat) : Nat := if M ≤ a + b then 1 else 0

/-- Modelled from the spec: `Pond._share`, re-sharing a known ring element
`v` into two fresh shares summing to `v` modulo `M`; `r` is the sampled
first share. -/
def sharePair (M v r : Nat) : Nat × Nat := (r % M, (v % M + M - r % M) % M)

/-- Source `share_with_wrap`: shares `sample` via `_share` and additionally
returns the wrap count incurred when recombining the two shares. -/
def share_with_wrap (M v r : Nat) : Nat × Nat × Nat :=
  ((sharePair M v r).1, (sharePair M v r).2,
    compute_wrap (sharePair M v r).1 (sharePair M v r).2 M)

/-- Modelled from the spec: `to_odd_modulus` on a single ring element,
reinterpreting it in the odd ring of cardinality `Lo`. -/
def to_odd_modulus (Lo a : Nat) : Nat := a % Lo

/-- Modelled from the spec: `OddImplicitTensor.optional_sub`, the
odd-modulus operator computing `c - x` when the mask bit is set and
leaving `x` unchanged otherwise. -/
def optional_sub (Lo c x : Nat) (bit : Bool) : Nat :=
  if bit then (c + Lo - x % Lo) % Lo else x % Lo

/-- Source `SecureNN.odd_modulus_bitwise_xor`: party 0 applies `optional_sub`
against the constant-ones tensor, party 1 against the zeros tensor, both
under the odd ring. -/
def odd_modulus_bitwise_xor (Lo s0 s1 : Nat) (b : Bool) : Nat × Nat :=
  (optional_sub Lo 1 s0 b, optional_sub Lo 0 s1 b)

/-- Modelled from the spec: a `PrimeTensor` value, i.e. an integer reduced
into the small prime ring `p = 67`. -/
def primeVal (z : Int) : Nat := (z % (p : Int)).toNat

/-- The `compared` value built inside `share_convert` (lines 164-171 of the
source): `private_compare` is commented out and a public all-ones tensor is
shared in its place via `_share`, so the pair depends only on the modulus
and on the sharing randomness `ro` - not on the input or the bitmask. -/
def comparedShare (L ro : Nat) : Nat × Nat := sharePair L 1 ro

/-- Source `SecureNN.share_convert`, share-level, one tensor element.  Arguments:
main modulus `L`, input shares `a0, a1`, random bitmask bit `b`, uniform
sample `u` for the sharemask (the source adds 1 to it), and sharing
randomness `rs` (sharemask), `rd` (delta wrap), `ro` (hard-coded compared
ones).  The odd target ring has cardinality `L - 1`. -/
def share_convert (L a0 a1 : Nat) (b : Bool) (u rs rd ro : Nat) :
    Except PyError (Nat × Nat) :=
  if 2 ^ 64 < L then .error .configError else
  let Lo := L - 1
  let sharemask := (u + 1) % L
  let sm := sharePair L sharemask rs
  let alpha_wrap := compute_wrap sm.1 sm.2 L
  let m0 := (a0 + sm.1) % L
  let m1 := (a1 + sm.2) % L
  let alpha0 := primeVal (-(alpha_wrap : Int) - 1)
  let beta_wrap_0 := compute_wrap a0 sm.1 L
  let beta_wrap_1 := compute_wrap a1 sm.2 L
  let delta_wrap := compute_wrap m0 m1 L
  let x_pub_masked := (m0 + m1) % L
  let _xbits := natBits 64 x_pub_masked
  let ds := sharePair L delta_wrap rd
  let cs := comparedShare L ro
  let pre := odd_modulus_bitwise_xor Lo cs.1 cs.2 b
  let d0 := to_odd_modulus Lo ds.1
  let d1 := to_odd_modulus Lo ds.2
  let bw0 := to_odd_modulus Lo beta_wrap_0
  let bw1 := to_odd_modulus Lo beta_wrap_1
  let conv0 := ((bw0 + pre.1) % Lo + d0) % Lo
  let conv1 := ((bw1 + pre.2) % Lo + d1) % Lo
  let conv0' := (conv0 + to_odd_modulus Lo alpha0) % Lo
  let conv1' := (conv1 + to_odd_modulus Lo 0) % Lo
  .ok ((to_odd_modulus Lo a0 + Lo - conv0') % Lo,
       (to_odd_modulus Lo a1 + Lo - conv1') % Lo)

/-! Helper lemmas shared by the claim theorems. -/

/-- Recombining the two shares produced by `_share` reconstructs the shared
value modulo `M`. -/
theorem sharePair_reveal (M v r : Nat) (h : 0 < M) :
    ((sharePair M v r).1 + (sharePair M v r).2) % M = v % M := by
  unfold sharePair
  have ha : r % M < M := Nat.mod_lt _ h
  have hb : v % M < M := Nat.mod_lt _ h
  rcases le_or_lt (r % M) (v % M) with hle | hlt
  · have h1 : v % M + M - r % M = (v % M - r % M) + M := by omega
    rw [h1, Nat.add_mod_right]
    have h2 : (v % M - r % M) % M = v % M - r % M :=
      Nat.mod_eq_of_lt (by omega)
    rw [h2]
    have h3 : r % M + (v % M - r % M) = v % M := by omega
    rw [h3, Nat.mod_eq_of_lt hb]
  · have h1 : (v % M + M - r % M) % M = v % M + M - r % M :=
      Nat.mod_eq_of_lt (by omega)
    rw [h1]
    have h2 : r % M + (v % M + M - r % M) = v % M + M := by omega
    rw [h2, Nat.add_mod_right, Nat.mod_eq_of_lt hb]

/-- The private path of `lsb` always returns the unimplemented-operation
signal, because it binds on `private_compare`. -/
theorem lsb_private_raises (M : Nat) (xs : ZMod M) (bb : Bool)
    (y : PondValue M) : _lsb_private M xs bb y = .error .notImplemented := rfl

/-- Under an odd modulus `msb` reaches `lsb` and hence raises the
unimplemented-operation signal. -/
theorem msb_raises_odd (M : Nat) (xs : ZMod M) (bb : Bool) (x : PondValue M)
    (h : M % 2 = 1) : msb M xs bb x = .error .notImplemented := by
  unfold msb
  rw [if_neg (by simp [h])]
  exact lsb_private_raises M xs bb _

/-- Under an even modulus `msb` raises the configuration error. -/
theorem msb_raises_even (M : Nat) (xs : ZMod M) (bb : Bool) (x : PondValue M)
    (h : M % 2 = 0) : msb M xs bb x = .error .configError := by
  unfold msb
  rw [if_pos (by omega)]

/-- Reconstruction formula of `bitwise_not` on an unscaled input. -/
theorem bitwise_not_unscaled (M : Nat) (xv : ZMod M) :
    bitwise_not M ⟨xv, false⟩ = .ok ⟨1 - xv, false⟩ := rfl

/-- Reconstruction formula of `bitwise_and` on unscaled inputs. -/
theorem bitwise_and_unscaled (M : Nat) (xv yv : ZMod M) :
    bitwise_and M ⟨xv, false⟩ ⟨yv, false⟩ = .ok ⟨xv * yv, false⟩ := rfl

/-- Reconstruction formula of `bitwise_or` on unscaled inputs. -/
theorem bitwise_or_unscaled (M : Nat) (xv yv : ZMod M) :
    bitwise_or M ⟨xv, false⟩ ⟨yv, false⟩ = .ok ⟨xv + yv - xv * yv, false⟩ := rfl

/-- Reconstruction formula of `bitwise_xor` on unscaled inputs. -/
theorem bitwise_xor_unscaled (M : Nat) (xv yv : ZMod M) :
    bitwise_xor M ⟨xv, false⟩ ⟨yv, false⟩
      = .ok ⟨xv + yv - 2 * (xv * yv), false⟩ := by
  show Except.ok (⟨xv + yv - xv * yv * ((2 : Nat) : ZMod M), false⟩ :
      PondValue M) = Except.ok ⟨xv + yv - 2 * (xv * yv), false⟩
  rw [show xv + yv - xv * yv * ((2 : Nat) : ZMod M)
      = xv + yv - 2 * (xv * yv) from by push_cast; ring]

/-! Claim theorems. -/

/-- Claim C1 (code_bug evaluation): the share-conversion round trip fails
on the code.  Concrete run with main modulus `L = 4` (even, at most 2^64),
odd target ring of cardinality 3, input shares `(3, 0)` so the plaintext is
`v = 3`, bitmask bit 0, uniform sample `u = 1` (so the sharemask is 2), and
sharing randomness `rs = rd = ro = 0`: the output shares are `(0, 1)`,
which reconstruct under the odd ring to `1`, while the claim requires
`v mod 3 = 0`.  The divergence comes from the hard-coded all-ones
stand-in for `private_compare` and from the `alpha` correction term being
built in the prime-67 ring before reinterpretation. -/
theorem share_convert_roundtrip_fails_concrete :
    share_convert 4 3 0 false 1 0 0 0 = .ok (0, 1) ∧
    (0 + 1) % 3 ≠ ((3 + 0) % 4) % 3 :=
  ⟨rfl, by decide⟩

/-- Claim C2 (counterexample): under the even modulus 4, `msb` (and hence
the comparison family built from it) raises the configuration error, not
the unimplemented-operation signal, so the claim as stated fails for even
moduli. -/
theorem msb_even_not_unimplemented_signal :
    msb 4 0 false ⟨0, false⟩ = .error .configError ∧
    msb 4 0 false ⟨0, false⟩ ≠ .error .notImplemented :=
  ⟨rfl, fun h => Except.noConfusion h (fun he => PyError.noConfusion he)⟩

/-- Claim C2 (amended): on every private input, `lsb` raises the
unimplemented-operation signal (for every modulus), because the private
`lsb` path always invokes `private_compare`, which unconditionally raises;
and whenever the modulus is odd, every operation that decomposes into it -
`msb`, `negative`, `non_negative`, `less`, `less_equal`, `greater`,
`greater_equal` and `relu` - raises the unimplemented-operation signal as
well (under an even modulus these raise the configuration error from the
`msb` parity check instead). -/
theorem lsb_family_unimplemented_raise (M : Nat) (xs : ZMod M) (bb : Bool)
    (x y : PondValue M) :
    _lsb_private M xs bb x = .error .notImplemented ∧
    (M % 2 = 1 →
      msb M xs bb x = .error .notImplemented ∧
      negative M xs bb x = .error .notImplemented ∧
      non_negative M xs bb x = .error .notImplemented ∧
      less M xs bb x y = .error .notImplemented ∧
      less_equal M xs bb x y = .error .notImplemented ∧
      greater M xs bb x y = .error .notImplemented ∧
      greater_equal M xs bb x y = .error .notImplemented ∧
      relu M xs bb x = .error .notImplemented) := by
  refine ⟨rfl, fun h => ?_⟩
  have hm : ∀ z : PondValue M, msb M xs bb z = .error .notImplemented :=
    fun z => msb_raises_odd M xs bb z h
  refine ⟨hm x, hm x, ?_, hm _, ?_, hm _, ?_, ?_⟩
  · show Except.bind (msb M xs bb x) _ = _
    rw [hm x]; rfl
  · show Except.bind (greater M xs bb x y) _ = _
    unfold greater negative; rw [hm _]; rfl
  · show Except.bind (less M xs bb x y) _ = _
    unfold less negative; rw [hm _]; rfl
  · show Except.bind (non_negative M xs bb x) _ = _
    unfold non_negative
    show Except.bind (Except.bind (msb M xs bb x) _) _ = _
    rw [hm x]; rfl

/-- Claim C2 (witness): instantiation at the odd modulus 5. -/
theorem lsb_family_unimplemented_raise_witness :
    relu 5 0 false ⟨1, false⟩ = .error .notImplemented :=
  ((lsb_family_unimplemented_raise 5 0 false ⟨1, false⟩
    ⟨0, false⟩).2 rfl).2.2.2.2.2.2.2

/-- Claim C3: `share_convert` never raises the unimplemented-operation
signal (for no input does it return `NotImplementedError`; the only raise
in its body is the 2^64 configuration check), and the internal `compared`
value it combines with the bitmask is a fresh secret sharing of the
all-ones constant: `comparedShare` takes only the modulus and the sharing
randomness - not the input shares and not the bitmask - and its two shares
reconstruct to 1. -/
theorem share_convert_no_unimplemented_and_compared_ones :
    (∀ (L a0 a1 : Nat) (b : Bool) (u rs rd ro : Nat),
      share_convert L a0 a1 b u rs rd ro ≠ .error .notImplemented) ∧
    (∀ L ro : Nat, 1 < L →
      ((comparedShare L ro).1 + (comparedShare L ro).2) % L = 1) := by
  constructor
  · intro L a0 a1 b u rs rd ro
    unfold share_convert
    split
    · simp
    · simp
  · intro L ro h
    have hrv := sharePair_reveal L 1 ro (by omega)
    unfold comparedShare
    rw [hrv, Nat.mod_eq_of_lt h]

/-- Claim C3 (witness): instantiation at modulus 4 with randomness 2. -/
theorem share_convert_no_unimplemented_witness :
    share_convert 4 0 0 false 0 0 0 0 ≠ .error .notImplemented ∧
    ((comparedShare 4 2).1 + (comparedShare 4 2).2) % 4 = 1 :=
  ⟨share_convert_no_unimplemented_and_compared_ones.1 4 0 0 false 0 0 0 0,
   share_convert_no_unimplemented_and_compared_ones.2 4 2 (by omega)⟩

/-- Claim C4 (counterexample): at modulus 5 with plaintexts a = 1, b = 2
(so a < b), `less` does not reconstruct to 1 - it raises the
unimplemented-operation signal, because its `msb` path invokes the
unimplemented `private_compare`. -/
theorem less_concrete_no_reconstruction :
    less 5 0 false ⟨1, false⟩ ⟨2, false⟩ = .error .notImplemented ∧
    less 5 0 false ⟨1, false⟩ ⟨2, false⟩ ≠ .ok ⟨1, false⟩ :=
  ⟨rfl, fun h => Except.noConfusion h⟩

/-- Claim C4 (amended): the definitional decomposition holds -
`less(x, y) = negative(x - y)`, `greater(x, y) = negative(y - x)`,
`less_equal = NOT(greater)`, `greater_equal = NOT(less)` - but no
comparison ever reconstructs to a bit: under an odd modulus every
invocation raises the unimplemented-operation signal (via the
unimplemented `private_compare`), and under an even modulus the
configuration error from the `msb` parity check. -/
theorem comparison_identities_and_raise (M : Nat) (xs : ZMod M) (bb : Bool)
    (x y : PondValue M) :
    less M xs bb x y = negative M xs bb (pondSub x y) ∧
    greater M xs bb x y = negative M xs bb (pondSub y x) ∧
    less_equal M xs bb x y = Except.bind (greater M xs bb x y) (bitwise_not M) ∧
    greater_equal M xs bb x y = Except.bind (less M xs bb x y) (bitwise_not M) ∧
    (M % 2 = 1 → less M xs bb x y = .error .notImplemented ∧
      greater_equal M xs bb x y = .error .notImplemented) ∧
    (M % 2 = 0 → less M xs bb x y = .error .configError ∧
      greater_equal M xs bb x y = .error .configError) := by
  refine ⟨rfl, rfl, rfl, rfl, fun h => ?_, fun h => ?_⟩
  · have hm : ∀ z : PondValue M, msb M xs bb z = .error .notImplemented :=
      fun z => msb_raises_odd M xs bb z h
    refine ⟨hm _, ?_⟩
    show Except.bind (less M xs bb x y) _ = _
    unfold less negative; rw [hm _]; rfl
  · have hm : ∀ z : PondValue M, msb M xs bb z = .error .configError :=
      fun z => msb_raises_even M xs bb z h
    refine ⟨hm _, ?_⟩
    show Except.bind (less M xs bb x y) _ = _
    unfold less negative; rw [hm _]; rfl

/-- Claim C4 (witness): instantiation at the odd modulus 5. -/
theorem comparison_identities_and_raise_witness :
    less 5 0 false ⟨0, false⟩ ⟨1, false⟩ = .error .notImplemented :=
  ((comparison_identities_and_raise 5 0 false ⟨0, false⟩
    ⟨1, false⟩).2.2.2.2.1 rfl).1

/-- Claim C5: on unscaled inputs the four boolean-ring operators
reconstruct to `1 - x`, `x * y`, `x + y - x*y` and `x + y - 2*x*y`
respectively, and therefore, on plaintext bits in {0, 1}, to the standard
boolean truth tables. -/
theorem bitwise_ops_reconstruct_truth_tables (M : Nat) (xv yv : ZMod M) :
    bitwise_not M ⟨xv, false⟩ = .ok ⟨1 - xv, false⟩ ∧
    bitwise_and M ⟨xv, false⟩ ⟨yv, false⟩ = .ok ⟨xv * yv, false⟩ ∧
    bitwise_or M ⟨xv, false⟩ ⟨yv, false⟩ = .ok ⟨xv + yv - xv * yv, false⟩ ∧
    bitwise_xor M ⟨xv, false⟩ ⟨yv, false⟩
      = .ok ⟨xv + yv - 2 * (xv * yv), false⟩ ∧
    (∀ a b : Bool, xv = bitVal M a → yv = bitVal M b →
      bitwise_not M ⟨xv, false⟩ = .ok ⟨bitVal M (!a), false⟩ ∧
      bitwise_and M ⟨xv, false⟩ ⟨yv, false⟩ = .ok ⟨bitVal M (a && b), false⟩ ∧
      bitwise_or M ⟨xv, false⟩ ⟨yv, false⟩ = .ok ⟨bitVal M (a || b), false⟩ ∧
      bitwise_xor M ⟨xv, false⟩ ⟨yv, false⟩
        = .ok ⟨bitVal M (Bool.xor a b), false⟩) := by
  refine ⟨bitwise_not_unscaled M xv, bitwise_and_unscaled M xv yv,
    bitwise_or_unscaled M xv yv, bitwise_xor_unscaled M xv yv,
    fun a b ha hb => ?_⟩
  subst ha hb
  cases a <;> cases b <;>
    rw [bitwise_not_unscaled, bitwise_and_unscaled, bitwise_or_unscaled,
      bitwise_xor_unscaled] <;>
    refine ⟨?_, ?_, ?_, ?_⟩ <;>
    · simp only [bitVal, Except.ok.injEq, PondValue.mk.injEq, Bool.not_true,
        Bool.not_false, Bool.and_self, Bool.or_self, Bool.and_true,
        Bool.and_false, Bool.true_and, Bool.false_and, Bool.or_true,
        Bool.or_false, Bool.true_or, Bool.false_or, Bool.xor_self,
        Bool.xor_false, Bool.false_xor, Bool.xor_true, Bool.true_xor,
        and_true]
      try ring

/-- Claim C5 (witness): instantiation at modulus 5 with both plaintext bits
equal to 1 (XOR row (1,1) of the truth table). -/
theorem bitwise_ops_reconstruct_truth_tables_witness :
    bitwise_xor 5 ⟨1, false⟩ ⟨1, false⟩
      = .ok ⟨bitVal 5 (Bool.xor true true), false⟩ :=
  ((bitwise_ops_reconstruct_truth_tables 5 1 1).2.2.2.2
    true true rfl rfl).2.2.2

/-- Claim C6 (counterexample): under the even modulus 4, `lsb` on a
private input raises the unimplemented-operation signal, not the
configuration error, so the claim that the msb/lsb family raises the
configuration error on even moduli fails for `lsb`. -/
theorem lsb_even_raises_unimplemented :
    lsb 4 0 false ⟨0, false⟩ = .error .notImplemented ∧
    lsb 4 0 false ⟨0, false⟩ ≠ .error .configError :=
  ⟨rfl, fun h => Except.noConfusion h (fun he => PyError.noConfusion he)⟩

/-- Claim C6 (amended): under an even modulus `msb` raises the
configuration error (the parity check precedes any party-local
computation), while `lsb` raises the unimplemented-operation signal
regardless of parity; under an odd modulus `msb(x)` is computed as
`lsb(2 * x)`. -/
theorem msb_parity_and_reduction (M : Nat) (xs : ZMod M) (bb : Bool)
    (x : PondValue M) :
    (M % 2 = 0 → msb M xs bb x = .error .configError) ∧
    (M % 2 = 1 → msb M xs bb x = lsb M xs bb (pondMulPubNat x 2)) ∧
    lsb M xs bb x = .error .notImplemented := by
  refine ⟨fun h => msb_raises_even M xs bb x h, fun h => ?_, rfl⟩
  unfold msb
  rw [if_neg (by simp [h])]

/-- Claim C6 (witness): instantiation at the even modulus 4 and the odd
modulus 5. -/
theorem msb_parity_and_reduction_witness :
    msb 4 0 false ⟨1, false⟩ = .error .configError ∧
    msb 5 0 false ⟨1, false⟩ = lsb 5 0 false (pondMulPubNat ⟨1, false⟩ 2) :=
  ⟨(msb_parity_and_reduction 4 0 false ⟨1, false⟩).1 rfl,
   (msb_parity_and_reduction 5 0 false ⟨1, false⟩).2.1 rfl⟩

/-- Claim C7: `private_compare`, `divide`, `max_pool` and
`dmax_pool_efficient` raise the unimplemented-operation signal immediately
on invocation, for every input (their bodies are a bare raise, so no
partial computation is attempted). -/
theorem unimplemented_operations_raise_immediately (α β γ δ : Type)
    (x : α) (r : β) (bet : γ) (y : β) :
    @private_compare α β γ δ x r bet = .error .notImplemented ∧
    @divide α β δ x y = .error .notImplemented ∧
    @max_pool α δ x = .error .notImplemented ∧
    @dmax_pool_efficient α δ x = .error .notImplemented :=
  ⟨rfl, rfl, rfl, rfl⟩

/-- Claim C8: each of the four boolean-ring operators raises the
precondition-violation assertion when any operand carries the scaling
flag (the asserts precede any arithmetic), and on unscaled operands the
assertion never fires. -/
theorem boolean_ops_scaled_precondition (M : Nat) (x y : PondValue M) :
    (x.is_scaled = true →
      bitwise_not M x = .error .assertionError ∧
      bitwise_and M x y = .error .assertionError ∧
      bitwise_or M x y = .error .assertionError ∧
      bitwise_xor M x y = .error .assertionError) ∧
    (y.is_scaled = true →
      bitwise_and M x y = .error .assertionError ∧
      bitwise_or M x y = .error .assertionError ∧
      bitwise_xor M x y = .error .assertionError) ∧
    (x.is_scaled = false → y.is_scaled = false →
      bitwise_not M x ≠ .error .assertionError ∧
      bitwise_and M x y ≠ .error .assertionError ∧
      bitwise_or M x y ≠ .error .assertionError ∧
      bitwise_xor M x y ≠ .error .assertionError) := by
  refine ⟨fun h => ?_, fun h => ?_, fun hx hy => ?_⟩
  · unfold bitwise_not bitwise_and bitwise_or bitwise_xor
    rw [h]
    simp
  · unfold bitwise_and bitwise_or bitwise_xor
    rw [h]
    rcases hxs : x.is_scaled <;> simp
  · obtain ⟨xv, xsc⟩ := x
    obtain ⟨yv, ysc⟩ := y
    simp only at hx hy
    subst hx
    subst hy
    exact ⟨fun hcon => Except.noConfusion hcon,
      fun hcon => Except.noConfusion hcon,
      fun hcon => Except.noConfusion hcon,
      fun hcon => Except.noConfusion hcon⟩

/-- Claim C8 (witness): a scaled operand trips the assertion at modulus 5;
unscaled operands do not. -/
theorem boolean_ops_scaled_precondition_witness :
    bitwise_and 5 ⟨1, true⟩ ⟨0, false⟩ = .error .assertionError ∧
    bitwise_xor 5 ⟨1, false⟩ ⟨1, false⟩ ≠ .error .assertionError :=
  ⟨((boolean_ops_scaled_precondition 5 ⟨1, true⟩ ⟨0, false⟩).1 rfl).2.1,
   ((boolean_ops_scaled_precondition 5 ⟨1, false⟩
     ⟨1, false⟩).2.2 rfl rfl).2.2.2⟩

/-- Claim C9: for every ring element `v < M` and every sampled first share
`r`, the triple returned by `share_with_wrap` satisfies
share-A + share-B = sample + wrap * M as an exact equality over the
integers (here over the naturals), not merely modulo `M`. -/
theorem share_with_wrap_exact_integer_identity (M v r : Nat) (hv : v < M) :
    (share_with_wrap M v r).1 + (share_with_wrap M v r).2.1
      = v + (share_with_wrap M v r).2.2 * M := by
  have hM : 0 < M := Nat.lt_of_le_of_lt (Nat.zero_le v) hv
  have ha : r % M < M := Nat.mod_lt _ hM
  have hvm : v % M = v := Nat.mod_eq_of_lt hv
  unfold share_with_wrap sharePair compute_wrap
  simp only [hvm]
  rcases le_or_lt (r % M) v with hle | hlt
  · have h1 : v + M - r % M = (v - r % M) + M := by omega
    rw [h1, Nat.add_mod_right]
    have h2 : (v - r % M) % M = v - r % M := Nat.mod_eq_of_lt (by omega)
    rw [h2]
    have h3 : ¬ M ≤ r % M + (v - r % M) := by omega
    rw [if_neg h3]
    omega
  · have h1 : (v + M - r % M) % M = v + M - r % M :=
      Nat.mod_eq_of_lt (by omega)
    rw [h1]
    have h2 : M ≤ r % M + (v + M - r % M) := by omega
    rw [if_pos h2]
    omega

/-- Claim C9 (witness): instantiation at M = 5, v = 3, r = 4: the shares
are (4, 4) with wrap count 1, and 4 + 4 = 3 + 1 * 5. -/
theorem share_with_wrap_exact_witness :
    (share_with_wrap 5 3 4).1 + (share_with_wrap 5 3 4).2.1
      = 3 + (share_with_wrap 5 3 4).2.2 * 5 :=
  share_with_wrap_exact_integer_identity 5 3 4 (by omega)

/-- Claim C10: `share_convert` raises the configuration error whenever the
main modulus exceeds 2^64 (the check is the first statement of the body,
before any party-local computation), and for moduli at most 2^64 that
check never fires. -/
theorem share_convert_modulus_ceiling (L a0 a1 : Nat) (b : Bool)
    (u rs rd ro : Nat) :
    (2 ^ 64 < L → share_convert L a0 a1 b u rs rd ro = .error .configError) ∧
    (L ≤ 2 ^ 64 → share_convert L a0 a1 b u rs rd ro ≠ .error .configError) := by
  constructor
  · intro h
    unfold share_convert
    rw [if_pos h]
  · intro h
    unfold share_convert
    rw [if_neg (Nat.not_lt.mpr h)]
    simp

/-- Claim C10 (witness): the ceiling fires at 2^64 + 1 and does not fire
at 4. -/
theorem share_convert_modulus_ceiling_witness :
    share_convert (2 ^ 64 + 1) 0 0 false 0 0 0 0 = .error .configError ∧
    share_convert 4 1 2 true 0 0 0 0 ≠ .error .configError :=
  ⟨(share_convert_modulus_ceiling (2 ^ 64 + 1) 0 0 false 0 0 0 0).1
     (by norm_num),
   (share_convert_modulus_ceiling 4 1 2 true 0 0 0 0).2 (by norm_num)⟩
